import Mathlib

/-!
Verification development for the neuronai repository: the Neuron
Communication Protocol codec (src/ncp.rs) and the discovery / connection
loops of the Neuron node (src/main.rs).

Modelling conventions:
- machine integers are `Nat` with explicit bounds (`u16` values are
  naturals below 65536, `u8` below 256);
- the `f32` payload of a message is carried as its 32-bit IEEE-754 bit
  pattern (a natural below 2^32): the codec moves the value with
  `to_be_bytes` / `from_be_bytes`, i.e. bit-for-bit, so the bit pattern
  is the faithful observable (this also represents NaN and the
  infinities exactly);
- a TCP stream, as seen by `Message::receive`, is modelled as either
  `avail data` (the bytes currently buffered, followed by end-of-stream)
  or `noData` (a non-blocking stream with nothing buffered, whose reads
  fail with `WouldBlock`).
-/

/-- `SignalType` from src/ncp.rs (five signal kinds, wire tags 0-4). -/
inductive SignalType
  | Data
  | ElectionRequest
  | Nomination
  | Vote
  | Victory
deriving DecidableEq

/-- `SignalType::from_u8` (src/ncp.rs lines 19-29). -/
def SignalType.from_u8 (value : Nat) : Option SignalType :=
  match value with
  | 0 => some SignalType.Data
  | 1 => some SignalType.ElectionRequest
  | 2 => some SignalType.Nomination
  | 3 => some SignalType.Vote
  | 4 => some SignalType.Victory
  | _ => none

/-- `SignalType::to_u8` (src/ncp.rs lines 31-40). -/
def SignalType.to_u8 : SignalType → Nat
  | SignalType.Data => 0
  | SignalType.ElectionRequest => 1
  | SignalType.Nomination => 2
  | SignalType.Vote => 3
  | SignalType.Victory => 4

/-- `Message` from src/ncp.rs: `sender_id` is a u16, `value` is the f32
payload carried as its 32-bit pattern. -/
structure Message where
  sender_id : Nat
  signal_type : SignalType
  value : Nat
deriving DecidableEq

/-- `Message::new` (src/ncp.rs lines 54-61). -/
def Message.new (sender_id : Nat) (signal_type : SignalType) (value : Nat) : Message :=
  ⟨sender_id, signal_type, value⟩

/-- The bytes written by `Message::send` (src/ncp.rs lines 74-85):
`sender_id.to_be_bytes() ++ [signal_type.to_u8()] ++ value.to_be_bytes()`,
a fixed 7-byte big-endian frame. -/
def Message.sendBytes (m : Message) : List Nat :=
  [m.sender_id / 256 % 256, m.sender_id % 256,
   m.signal_type.to_u8,
   m.value / 2 ^ 24 % 256, m.value / 2 ^ 16 % 256, m.value / 2 ^ 8 % 256, m.value % 256]

/-- A TCP stream as observed by `Message::receive`: bytes buffered before
end-of-stream, or a non-blocking stream with no data (reads would block). -/
inductive NetStream
  | avail (data : List Nat)
  | noData
deriving DecidableEq

/-- The one io error kind `Message::receive` can produce in this model:
`read_exact` hitting end-of-stream before filling the 7-byte buffer. -/
inductive IOErrorKind
  | unexpectedEof
deriving DecidableEq

/-- Result of `Message::receive`: `ok` is Rust's `Ok` (with the optional
message), `ioErr` is `Err` with the io error kind. -/
inductive RecvResult
  | ok (m : Option Message)
  | ioErr (k : IOErrorKind)
deriving DecidableEq

/-- `Message::receive` (src/ncp.rs lines 89-115), returning the result and
the stream state after the call.
- `noData`: `peek` fails with `WouldBlock`; the code returns `Ok(None)`.
- `avail []`: `peek` returns `Ok(0)` (connection closed); the code returns
  `Ok(None)`.
- at least 7 bytes buffered: `read_exact` consumes 7 bytes, the frame is
  parsed big-endian; a tag outside 0-4 logs a warning and returns
  `Ok(None)` with the bytes already consumed.
- 1 to 6 bytes buffered before end-of-stream: `peek` returns a nonzero
  count, then `read_exact` fails with an `UnexpectedEof` io error (the
  bytes it consumed before failing are unspecified; we model them all
  consumed). -/
def Message.receive : NetStream → RecvResult × NetStream
  | NetStream.noData => (RecvResult.ok none, NetStream.noData)
  | NetStream.avail [] => (RecvResult.ok none, NetStream.avail [])
  | NetStream.avail (b0 :: b1 :: b2 :: b3 :: b4 :: b5 :: b6 :: rest) =>
      let sender_id := b0 * 256 + b1
      let value := b3 * 2 ^ 24 + b4 * 2 ^ 16 + b5 * 2 ^ 8 + b6
      match SignalType.from_u8 b2 with
      | some st => (RecvResult.ok (some ⟨sender_id, st, value⟩), NetStream.avail rest)
      | none => (RecvResult.ok none, NetStream.avail rest)
  | NetStream.avail _ => (RecvResult.ioErr IOErrorKind.unexpectedEof, NetStream.avail [])

lemma be16_recompose (n : Nat) (h : n < 65536) : n / 256 % 256 * 256 + n % 256 = n := by
  omega

lemma be32_recompose (n : Nat) (h : n < 4294967296) :
    n / 2 ^ 24 % 256 * 2 ^ 24 + n / 2 ^ 16 % 256 * 2 ^ 16 + n / 2 ^ 8 % 256 * 2 ^ 8 + n % 256
      = n := by
  omega

lemma from_u8_to_u8 (st : SignalType) : SignalType.from_u8 st.to_u8 = some st := by
  cases st <;> rfl

/-- C1: codec round-trip. For every message with a u16 sender id, one of the
five signal kinds, and any 32-bit value pattern (including those of NaN and
the infinities), encoding via `Message::send`'s byte layout and decoding the
resulting 7-byte frame via `Message::receive`'s parse yields the original
message, the value bit-for-bit identical. -/
theorem receive_sendBytes_roundtrip (m : Message)
    (h1 : m.sender_id < 65536) (h2 : m.value < 4294967296) :
    Message.receive (NetStream.avail m.sendBytes)
      = (RecvResult.ok (some m), NetStream.avail []) := by
  obtain ⟨sid, st, v⟩ := m
  simp only [Message.sendBytes, Message.receive, from_u8_to_u8]
  have e1 : sid / 256 % 256 * 256 + sid % 256 = sid := be16_recompose sid h1
  have e2 : v / 2 ^ 24 % 256 * 2 ^ 24 + v / 2 ^ 16 % 256 * 2 ^ 16 + v / 2 ^ 8 % 256 * 2 ^ 8
      + v % 256 = v := be32_recompose v h2
  rw [e1, e2]

/-- Witness for C1 at sender id 65535, signal kind Victory, and the bit
pattern 0x7FC00000 (a NaN). -/
theorem receive_sendBytes_roundtrip_witness :
    (65535 : Nat) < 65536 ∧ (2143289344 : Nat) < 4294967296 ∧
    Message.receive (NetStream.avail (Message.sendBytes ⟨65535, SignalType.Victory, 2143289344⟩))
      = (RecvResult.ok (some ⟨65535, SignalType.Victory, 2143289344⟩), NetStream.avail []) :=
  ⟨by decide, by decide,
    receive_sendBytes_roundtrip ⟨65535, SignalType.Victory, 2143289344⟩ (by decide) (by decide)⟩

/-- C2 (code evaluation at the failing input): a 7-byte frame whose tag byte
is 5 is not rejected with an error; `Message::receive` consumes the frame and
returns `Ok(None)` — the silently-absent result the claim forbids. -/
theorem receive_unknown_tag_silently_dropped :
    Message.receive (NetStream.avail [0, 1, 5, 0, 0, 0, 1])
      = (RecvResult.ok none, NetStream.avail []) := by
  decide

/-- C3 (counterexample): the 0-byte input — fewer than 7 bytes — does not
fail at all: `Message::receive` reports it as the non-error `Ok(None)`
(connection closed), refuting the claim that every short input fails with
a truncation error. -/
theorem receive_empty_input_is_ok_none :
    (Message.receive (NetStream.avail [])).1 = RecvResult.ok none := by
  decide

/-- C3 (amended): for an input of 1 to 6 bytes followed by end-of-stream,
`Message::receive` fails with an `UnexpectedEof` io error (there is no
`DecodeError::Truncated` type in the code); the 0-byte input instead yields
the non-error `Ok(None)`. -/
theorem receive_short_input_io_error (bs : List Nat) (h1 : bs ≠ []) (h2 : bs.length < 7) :
    (Message.receive (NetStream.avail bs)).1 = RecvResult.ioErr IOErrorKind.unexpectedEof := by
  rcases bs with _ | ⟨a, _ | ⟨b, _ | ⟨c, _ | ⟨d, _ | ⟨e, _ | ⟨f, _ | ⟨g, t⟩⟩⟩⟩⟩⟩⟩
  · exact absurd rfl h1
  · rfl
  · rfl
  · rfl
  · rfl
  · rfl
  · rfl
  · simp only [List.length_cons] at h2
    omega

/-- Witness for the amended C3 at the 3-byte input `[1, 2, 3]`. -/
theorem receive_short_input_io_error_witness :
    ([1, 2, 3] : List Nat) ≠ [] ∧ ([1, 2, 3] : List Nat).length < 7 ∧
    (Message.receive (NetStream.avail [1, 2, 3])).1
      = RecvResult.ioErr IOErrorKind.unexpectedEof :=
  ⟨by decide, by decide, receive_short_input_io_error [1, 2, 3] (by decide) (by decide)⟩

/-- C10: `Message::receive` conflates three distinct conditions into the same
non-error result `Ok(None)`: a zero-byte peek (connection closed), a read
that would block (non-blocking stream with no data), and a well-formed
7-byte frame whose tag byte is 5 or more — in the last case the 7 bytes are
consumed from the stream. The return value alone cannot distinguish them. -/
theorem receive_conflates_three_conditions :
    (Message.receive (NetStream.avail [])).1 = RecvResult.ok none ∧
    (Message.receive NetStream.noData).1 = RecvResult.ok none ∧
    Message.receive (NetStream.avail [0, 0, 5, 0, 0, 0, 0])
      = (RecvResult.ok none, NetStream.avail []) := by
  decide

/-- A peer address, the spec's `PeerAddress` (`host:port`): the Rust
`SocketAddr` as used by main.rs — an IPv4 or IPv6 host (the ip as its
numeric value) and a port. -/
inductive SockAddr
  | v4 (ip : Nat) (port : Nat)
  | v6 (ip : Nat) (port : Nat)
deriving DecidableEq

/-- The `SocketAddr` ordering used by the guard at main.rs line 118
(`*peer_address < self_address`): a V4 address is below any V6 address;
within a family, compare ip first, then port. -/
def sockAddrLt : SockAddr → SockAddr → Bool
  | SockAddr.v4 i p, SockAddr.v4 j q => decide (i < j ∨ (i = j ∧ p < q))
  | SockAddr.v4 _ _, SockAddr.v6 _ _ => true
  | SockAddr.v6 _ _, SockAddr.v4 _ _ => false
  | SockAddr.v6 i p, SockAddr.v6 j q => decide (i < j ∨ (i = j ∧ p < q))

/-- The initiator rule of `Neuron::connect_to_peers` (main.rs line 118):
the node at `selfAddr` initiates to `peer` iff `peer < selfAddr`. -/
def initiates (selfAddr peer : SockAddr) : Bool :=
  sockAddrLt peer selfAddr

/-- C4: deterministic tie-break. For any two distinct addresses A and B,
under the ordering used by the outbound connection loop exactly one of
"A initiates to B" and "B initiates to A" holds; both sides evaluate the
same `initiates` function, so they obtain the same outcome. -/
theorem tie_break_exactly_one (A B : SockAddr) (h : A ≠ B) :
    (initiates A B = true ∧ initiates B A = false) ∨
    (initiates A B = false ∧ initiates B A = true) := by
  cases A with
  | v4 i p =>
    cases B with
    | v4 j q =>
      have hne : ¬(i = j ∧ p = q) := by
        intro ⟨h1, h2⟩
        exact h (by rw [h1, h2])
      simp only [initiates, sockAddrLt, decide_eq_true_eq, decide_eq_false_iff_not]
      omega
    | v6 j q =>
      right
      exact ⟨rfl, rfl⟩
  | v6 i p =>
    cases B with
    | v4 j q =>
      left
      exact ⟨rfl, rfl⟩
    | v6 j q =>
      have hne : ¬(i = j ∧ p = q) := by
        intro ⟨h1, h2⟩
        exact h (by rw [h1, h2])
      simp only [initiates, sockAddrLt, decide_eq_true_eq, decide_eq_false_iff_not]
      omega

/-- Witness for C4 at the spec's concrete scenario: 10.0.0.1:5003 and
10.0.0.2:5003 (ip values 167772161 and 167772162). -/
theorem tie_break_exactly_one_witness :
    SockAddr.v4 167772161 5003 ≠ SockAddr.v4 167772162 5003 ∧
    ((initiates (SockAddr.v4 167772161 5003) (SockAddr.v4 167772162 5003) = true ∧
      initiates (SockAddr.v4 167772162 5003) (SockAddr.v4 167772161 5003) = false) ∨
     (initiates (SockAddr.v4 167772161 5003) (SockAddr.v4 167772162 5003) = false ∧
      initiates (SockAddr.v4 167772162 5003) (SockAddr.v4 167772161 5003) = true)) :=
  ⟨by decide, tie_break_exactly_one _ _ (by decide)⟩

/-- The discovery-listener handler of one announcement datagram
(`Neuron::listen_for_announcements`, main.rs lines 66-102): if the
datagram's SOURCE address differs from the node's own address, the payload
is parsed (`String::from_utf8` then `parse::<SocketAddr>()`, abstracted
here to its result `parsed`); on success the parsed address is pushed onto
the registry unless already present. Payloads that fail to parse, and
datagrams whose source equals the node's own address, leave the registry
unchanged. -/
def processAnnouncement (selfAddr srcAddr : SockAddr) (parsed : Option SockAddr)
    (peers : List SockAddr) : List SockAddr :=
  if srcAddr ≠ selfAddr then
    match parsed with
    | some peerAddress => if peerAddress ∈ peers then peers else peers ++ [peerAddress]
    | none => peers
  else
    peers

/-- C5 (code evaluation at the failing input): a node at 127.0.0.1:5003
receives its own announcement back. The datagram's source is the ephemeral
UDP send socket (127.0.0.1:54321), not the node's address, so the guard
`src_address != self_address` passes and the announced address — the node's
OWN address — is inserted into its registry, violating the claimed
invariant. -/
theorem self_announcement_inserted :
    processAnnouncement (SockAddr.v4 2130706433 5003) (SockAddr.v4 2130706433 54321)
      (some (SockAddr.v4 2130706433 5003)) []
      = [SockAddr.v4 2130706433 5003] := by
  decide

/-- The registry insert used by both `listen_for_announcements`
(main.rs lines 72-78) and `listen_for_connections` (lines 237-241):
`if !peers_guard.contains(&addr) { peers_guard.push(addr) }`. The boolean
records whether the push executed (the spec contract's return value). -/
def add_if_absent (a : SockAddr) (peers : List SockAddr) : Bool × List SockAddr :=
  if a ∈ peers then (false, peers) else (true, peers ++ [a])

/-- C6: registry insert idempotence. After adding an address, the address is
a member; adding it again returns false and leaves the registry unchanged;
and the add inserts the address exactly once (its multiplicity grows by one
only if it was absent). -/
theorem add_if_absent_idempotent (a : SockAddr) (peers : List SockAddr) :
    a ∈ (add_if_absent a peers).2 ∧
    add_if_absent a (add_if_absent a peers).2 = (false, (add_if_absent a peers).2) ∧
    (add_if_absent a peers).2.count a
      = (if a ∈ peers then peers.count a else peers.count a + 1) := by
  by_cases h : a ∈ peers
  · simp [add_if_absent, h]
  · simp [add_if_absent, h, List.count_append]

/-- Bit pattern of Rust's `self_id as f32` cast (main.rs line 131): the
IEEE-754 binary32 encoding of a natural number. The cast is exact for every
n below 2^24, hence for every u16 id. -/
def natToF32bits (n : Nat) : Nat :=
  if n = 0 then 0
  else (Nat.log2 n + 127) * 2 ^ 23 + (n * 2 ^ (23 - Nat.log2 n) - 2 ^ 23)

/-- The initial handshake built at main.rs line 131:
`Message::new(self_id, SignalType::Data, self_id as f32)`. -/
def handshakeMessage (selfId : Nat) : Message :=
  Message.new selfId SignalType.Data (natToF32bits selfId)

/-- Observable actions of one pass of the outbound connection loop. -/
inductive TickAction
  | connectAttempt (a : SockAddr)
  | sendMsg (a : SockAddr) (bytes : List Nat)
  | spawnSession (a : SockAddr)
  | logConnectError (a : SockAddr)
deriving DecidableEq

/-- Does the action send bytes to peer `p`? -/
def TickAction.isSendTo (p : SockAddr) : TickAction → Bool
  | TickAction.sendMsg a _ => decide (a = p)
  | _ => false

/-- One pass over the registry by the outbound loop of
`Neuron::connect_to_peers` (main.rs lines 114-155), iterating over
`toVisit` while `peers` is the registry contents (the loop holds the lock
and never mutates the registry; the failure branch only logs). `connectOk`
abstracts whether `connect(peer)` succeeds. On success the node sends the
handshake bytes and spawns a peer session (the session is spawned even if
the handshake write fails — the code only logs a write error); on failure
it logs. Returns the emitted actions and the registry after the pass. -/
def connectTick (selfId : Nat) (selfAddr : SockAddr) (connectOk : SockAddr → Bool) :
    List SockAddr → List SockAddr → List TickAction × List SockAddr
  | [], peers => ([], peers)
  | p :: rest, peers =>
    if sockAddrLt p selfAddr then
      if connectOk p then
        let r := connectTick selfId selfAddr connectOk rest peers
        (TickAction.connectAttempt p
          :: TickAction.sendMsg p (handshakeMessage selfId).sendBytes
          :: TickAction.spawnSession p :: r.1, r.2)
      else
        let r := connectTick selfId selfAddr connectOk rest peers
        (TickAction.connectAttempt p :: TickAction.logConnectError p :: r.1, r.2)
    else
      connectTick selfId selfAddr connectOk rest peers

/-- One full tick of the outbound loop: visit every registry entry. -/
def outboundTick (selfId : Nat) (selfAddr : SockAddr) (connectOk : SockAddr → Bool)
    (peers : List SockAddr) : List TickAction × List SockAddr :=
  connectTick selfId selfAddr connectOk peers peers

lemma connectTick_snd (selfId : Nat) (selfAddr : SockAddr) (connectOk : SockAddr → Bool)
    (l peers : List SockAddr) :
    (connectTick selfId selfAddr connectOk l peers).2 = peers := by
  induction l with
  | nil => rfl
  | cons p rest ih =>
    simp only [connectTick]
    by_cases h1 : sockAddrLt p selfAddr
    · by_cases h2 : connectOk p <;> simp [h1, h2, ih]
    · simp [h1, ih]

lemma connectTick_filter_send (selfId : Nat) (selfAddr p : SockAddr)
    (connectOk : SockAddr → Bool) (l peers : List SockAddr)
    (hmem : p ∈ l) (hlt : sockAddrLt p selfAddr = true) (hok : connectOk p = true) :
    ((connectTick selfId selfAddr connectOk l peers).1.filter (TickAction.isSendTo p)).head?
      = some (TickAction.sendMsg p (handshakeMessage selfId).sendBytes) := by
  induction l with
  | nil => cases hmem
  | cons q rest ih =>
    by_cases hq : q = p
    · subst hq
      simp only [connectTick, hlt, hok, if_true]
      simp [TickAction.isSendTo]
    · have hmem2 : p ∈ rest := by
        cases hmem with
        | head => exact absurd rfl hq
        | tail _ h => exact h
      simp only [connectTick]
      by_cases h1 : sockAddrLt q selfAddr
      · by_cases h2 : connectOk q
        · simp only [h1, h2, if_true]
          have hs : TickAction.isSendTo p (TickAction.sendMsg q (handshakeMessage selfId).sendBytes)
              = false := by
            simp [TickAction.isSendTo, hq]
          simp [TickAction.isSendTo, hq, hs, ih hmem2]
        · simp only [h1, if_true, h2, if_false]
          simp [TickAction.isSendTo, ih hmem2]
      · simp only [h1, if_false]
        exact ih hmem2

lemma connectTick_send_spawn_sublist (selfId : Nat) (selfAddr p : SockAddr)
    (connectOk : SockAddr → Bool) (l peers : List SockAddr)
    (hmem : p ∈ l) (hlt : sockAddrLt p selfAddr = true) (hok : connectOk p = true) :
    List.Sublist
      [TickAction.sendMsg p (handshakeMessage selfId).sendBytes, TickAction.spawnSession p]
      (connectTick selfId selfAddr connectOk l peers).1 := by
  induction l with
  | nil => cases hmem
  | cons q rest ih =>
    by_cases hq : q = p
    · subst hq
      simp only [connectTick, hlt, hok, if_true]
      exact List.Sublist.cons _
        (List.Sublist.cons₂ _ (List.Sublist.cons₂ _ (List.nil_sublist _)))
    · have hmem2 : p ∈ rest := by
        cases hmem with
        | head => exact absurd rfl hq
        | tail _ h => exact h
      simp only [connectTick]
      by_cases h1 : sockAddrLt q selfAddr
      · by_cases h2 : connectOk q
        · simp only [h1, h2, if_true]
          exact List.Sublist.cons _ (List.Sublist.cons _ (List.Sublist.cons _ (ih hmem2)))
        · simp only [h1, if_true, h2, if_false]
          exact List.Sublist.cons _ (List.Sublist.cons _ (ih hmem2))
      · simp only [h1, if_false]
        exact ih hmem2

/-- C7: outbound handshake content. Whenever the outbound loop successfully
connects to a registered peer (the tie-break lets it initiate and the
connection succeeds), the first bytes it sends to that peer are exactly the
frame of `Message::new(self_id, SignalType::Data, self_id as f32)`, and that
send is followed by handing the connection to a new peer session. -/
theorem handshake_first_message (selfId : Nat) (selfAddr p : SockAddr)
    (connectOk : SockAddr → Bool) (peers : List SockAddr)
    (hmem : p ∈ peers) (hlt : sockAddrLt p selfAddr = true) (hok : connectOk p = true) :
    ((outboundTick selfId selfAddr connectOk peers).1.filter (TickAction.isSendTo p)).head?
      = some (TickAction.sendMsg p (handshakeMessage selfId).sendBytes) ∧
    List.Sublist
      [TickAction.sendMsg p (handshakeMessage selfId).sendBytes, TickAction.spawnSession p]
      (outboundTick selfId selfAddr connectOk peers).1 :=
  ⟨connectTick_filter_send selfId selfAddr p connectOk peers peers hmem hlt hok,
   connectTick_send_spawn_sublist selfId selfAddr p connectOk peers peers hmem hlt hok⟩

/-- Witness for C7: node 1 at 10.0.0.2:5003 connecting to registered peer
10.0.0.1:5003, all connections succeeding. -/
theorem handshake_first_message_witness :
    SockAddr.v4 167772161 5003 ∈ [SockAddr.v4 167772161 5003] ∧
    sockAddrLt (SockAddr.v4 167772161 5003) (SockAddr.v4 167772162 5003) = true ∧
    (fun _ => true) (SockAddr.v4 167772161 5003) = true ∧
    (((outboundTick 1 (SockAddr.v4 167772162 5003) (fun _ => true)
        [SockAddr.v4 167772161 5003]).1.filter
        (TickAction.isSendTo (SockAddr.v4 167772161 5003))).head?
      = some (TickAction.sendMsg (SockAddr.v4 167772161 5003) (handshakeMessage 1).sendBytes) ∧
     List.Sublist
      [TickAction.sendMsg (SockAddr.v4 167772161 5003) (handshakeMessage 1).sendBytes,
       TickAction.spawnSession (SockAddr.v4 167772161 5003)]
      (outboundTick 1 (SockAddr.v4 167772162 5003) (fun _ => true)
        [SockAddr.v4 167772161 5003]).1) :=
  ⟨by decide, by decide, rfl,
   handshake_first_message 1 (SockAddr.v4 167772162 5003) (SockAddr.v4 167772161 5003)
     (fun _ => true) [SockAddr.v4 167772161 5003] (by decide) (by decide) rfl⟩

lemma connectTick_logs_failure (selfId : Nat) (selfAddr p : SockAddr)
    (connectOk : SockAddr → Bool) (l peers : List SockAddr)
    (hmem : p ∈ l) (hlt : sockAddrLt p selfAddr = true) (hfail : connectOk p = false) :
    TickAction.logConnectError p ∈ (connectTick selfId selfAddr connectOk l peers).1 := by
  induction l with
  | nil => cases hmem
  | cons q rest ih =>
    by_cases hq : q = p
    · subst hq
      simp only [connectTick, hlt, hfail, if_true, if_false]
      exact List.mem_cons_of_mem _ (List.mem_cons_self _ _)
    · have hmem2 : p ∈ rest := by
        cases hmem with
        | head => exact absurd rfl hq
        | tail _ h => exact h
      simp only [connectTick]
      by_cases h1 : sockAddrLt q selfAddr
      · by_cases h2 : connectOk q
        · simp only [h1, h2, if_true]
          exact List.mem_cons_of_mem _ (List.mem_cons_of_mem _
            (List.mem_cons_of_mem _ (ih hmem2)))
        · simp only [h1, if_true, h2, if_false]
          exact List.mem_cons_of_mem _ (List.mem_cons_of_mem _ (ih hmem2))
      · simp only [h1, if_false]
        exact ih hmem2

lemma connectTick_no_send_on_failure (selfId : Nat) (selfAddr p : SockAddr)
    (connectOk : SockAddr → Bool) (l peers : List SockAddr)
    (hfail : connectOk p = false) :
    ∀ a ∈ (connectTick selfId selfAddr connectOk l peers).1,
      TickAction.isSendTo p a = false := by
  induction l with
  | nil =>
    intro a ha
    cases ha
  | cons q rest ih =>
    intro a ha
    simp only [connectTick] at ha
    by_cases h1 : sockAddrLt q selfAddr
    · by_cases h2 : connectOk q
      · have hq : q ≠ p := by
          intro h
          rw [h, hfail] at h2
          exact Bool.noConfusion h2
        simp only [h1, h2, if_true, List.mem_cons] at ha
        rcases ha with rfl | rfl | rfl | ha
        · rfl
        · simp [TickAction.isSendTo, hq]
        · rfl
        · exact ih a ha
      · simp only [h1, h2, if_true, if_false] at ha
        rcases List.mem_cons.mp ha with h3 | h3
        · rw [h3]
          rfl
        rcases List.mem_cons.mp h3 with h4 | h4
        · rw [h4]
          rfl
        · exact ih a h4
    · simp only [h1, if_false] at ha
      exact ih a ha

/-- C9: registry unchanged on connect failure. When the outbound loop's
connection attempt to a registered peer fails, the tick leaves the registry
exactly as it was — the failing peer remains registered for the next tick
and no entry is added or removed — the failure is logged, and no bytes are
sent to that peer. -/
theorem connect_failure_preserves_registry (selfId : Nat) (selfAddr p : SockAddr)
    (connectOk : SockAddr → Bool) (peers : List SockAddr)
    (hmem : p ∈ peers) (hlt : sockAddrLt p selfAddr = true) (hfail : connectOk p = false) :
    (outboundTick selfId selfAddr connectOk peers).2 = peers ∧
    p ∈ (outboundTick selfId selfAddr connectOk peers).2 ∧
    TickAction.logConnectError p ∈ (outboundTick selfId selfAddr connectOk peers).1 ∧
    (∀ a ∈ (outboundTick selfId selfAddr connectOk peers).1,
      TickAction.isSendTo p a = false) := by
  refine ⟨connectTick_snd selfId selfAddr connectOk peers peers, ?_, ?_, ?_⟩
  · rw [outboundTick, connectTick_snd]
    exact hmem
  · exact connectTick_logs_failure selfId selfAddr p connectOk peers peers hmem hlt hfail
  · exact connectTick_no_send_on_failure selfId selfAddr p connectOk peers peers hfail

/-- Witness for C9: node 1 at 10.0.0.2:5003 with registered peer
10.0.0.1:5003 and every connection attempt failing. -/
theorem connect_failure_preserves_registry_witness :
    SockAddr.v4 167772161 5003 ∈ [SockAddr.v4 167772161 5003] ∧
    sockAddrLt (SockAddr.v4 167772161 5003) (SockAddr.v4 167772162 5003) = true ∧
    (fun _ => false) (SockAddr.v4 167772161 5003) = false ∧
    ((outboundTick 1 (SockAddr.v4 167772162 5003) (fun _ => false)
        [SockAddr.v4 167772161 5003]).2 = [SockAddr.v4 167772161 5003] ∧
     SockAddr.v4 167772161 5003 ∈ (outboundTick 1 (SockAddr.v4 167772162 5003)
        (fun _ => false) [SockAddr.v4 167772161 5003]).2 ∧
     TickAction.logConnectError (SockAddr.v4 167772161 5003)
        ∈ (outboundTick 1 (SockAddr.v4 167772162 5003) (fun _ => false)
            [SockAddr.v4 167772161 5003]).1 ∧
     (∀ a ∈ (outboundTick 1 (SockAddr.v4 167772162 5003) (fun _ => false)
        [SockAddr.v4 167772161 5003]).1,
       TickAction.isSendTo (SockAddr.v4 167772161 5003) a = false)) :=
  ⟨by decide, by decide, rfl,
   connect_failure_preserves_registry 1 (SockAddr.v4 167772162 5003)
     (SockAddr.v4 167772161 5003) (fun _ => false) [SockAddr.v4 167772161 5003]
     (by decide) (by decide) rfl⟩

/-- Result of one iteration of the session loop of
`Neuron::handle_peer_communication`. -/
inductive SessionOutcome
  | closedNormal
  | closedError
  | gotMessage (m : Message) (s : NetStream)
deriving DecidableEq

/-- One iteration of the session loop in `Neuron::handle_peer_communication`
(main.rs lines 167-217). The loop first executes
`stream.read(&mut [0; 128])` — reading and DISCARDING up to 128 buffered
bytes into a scratch buffer — and only then calls `Message::receive` on the
same stream. The stream is modelled as its buffered bytes followed by
end-of-stream; the outer read returns all buffered bytes, at most 128.
Outcome mapping, following the code:
- outer read returns 0 (peer disconnected): break, `closedNormal`;
- outer read fails (the code breaks on ANY read error, would-block
  included): `closedError`;
- otherwise `Message::receive` on what remains: `Ok(Some(m))` continues the
  loop with the message, `Ok(None)` breaks as a graceful disconnect
  (`closedNormal`), `Err` breaks as `closedError`. -/
def sessionStep : NetStream → SessionOutcome
  | NetStream.noData => SessionOutcome.closedError
  | NetStream.avail [] => SessionOutcome.closedNormal
  | NetStream.avail (d :: ds) =>
      match Message.receive (NetStream.avail ((d :: ds).drop 128)) with
      | (RecvResult.ok (some m), s1) => SessionOutcome.gotMessage m s1
      | (RecvResult.ok none, _) => SessionOutcome.closedNormal
      | (RecvResult.ioErr _, _) => SessionOutcome.closedError

/-- C8 (code evaluation at the failing input): a session whose stream has
exactly one complete, valid 7-byte frame buffered (the encoding of
`Message{sender_id: 3, signal_kind: Data, value bits: 1078530011}`). The
outer `read(&mut [0; 128])` consumes and discards all 7 bytes, so
`Message::receive` sees an empty stream and returns `Ok(None)`: the session
exits reporting a graceful disconnect and the frame is never passed to the
codec — the loop does not read exactly 7 bytes per frame as claimed. -/
theorem session_drops_buffered_frame :
    sessionStep (NetStream.avail (Message.sendBytes ⟨3, SignalType.Data, 1078530011⟩))
      = SessionOutcome.closedNormal := by
  decide
